import Mathlib

/-!
Verification development for the `@shakesco/private` stealth-address SDK.

The JavaScript sources are embedded shallowly:

* hex strings are Lean `String`s; JavaScript `slice`/`padStart` become
  explicit list operations with JavaScript clamping semantics;
* fallible JavaScript code (functions that may `throw`) becomes
  `Except String α`, carrying the thrown message;
* machine-level big integers (ethers `BigNumber`, elliptic `BN`, noble
  bigints) become `Nat` with explicit `% p` where reduction happens;
* the trusted curve/hash primitives called by the source (elliptic,
  @noble/secp256k1, js-sha3, ethers sha256) are given executable
  reference implementations of the mathematical functions they compute
  (affine secp256k1 arithmetic, SHA-256, Keccak-256);
* sources of randomness (`RandomNumber`, noble `utils.randomPrivateKey`)
  are threaded as explicit parameters, which determinises the functions
  without changing any single run.

Each embedded definition carries a comment pointing at the source lines
it mirrors.
-/

set_option maxRecDepth 10000


/-! ## Definitions: shallow embedding of the sources and of the trusted
primitives they call -/

/-- Is `c` one of `0-9`, `a-f`, `A-F`?  This is the character class of the
regular expression used by ethers `isHexString`. -/
def isHexDig (c : Char) : Bool :=
  ('0' ≤ c ∧ c ≤ '9') ∨ ('a' ≤ c ∧ c ≤ 'f') ∨ ('A' ≤ c ∧ c ≤ 'F')

/-- Numeric value of a hex digit (0 for non-digits; callers validate first). -/
def hexCharVal (c : Char) : Nat :=
  if '0' ≤ c ∧ c ≤ '9' then c.toNat - '0'.toNat
  else if 'a' ≤ c ∧ c ≤ 'f' then c.toNat - 'a'.toNat + 10
  else if 'A' ≤ c ∧ c ≤ 'F' then c.toNat - 'A'.toNat + 10
  else 0

/-- Lowercase hex digit for a value `< 16`. -/
def hexDigitOf (d : Nat) : Char :=
  if d < 10 then Char.ofNat ('0'.toNat + d) else Char.ofNat ('a'.toNat + (d - 10))

/-- Value of a prefix-free hex digit list, most significant first. -/
def hexValL (l : List Char) : Nat :=
  l.foldl (fun a c => a * 16 + hexCharVal c) 0

/-- Value of a prefix-free hex digit string, most significant first. -/
def hexToNat (s : String) : Nat := hexValL s.data

/-- Hex digit list of `n` (no leading zeros, lowercase), with explicit fuel.
The fuel only bounds the recursion depth; `fuel ≥ log16 n + 1` is enough. -/
def natToHexAux : Nat → Nat → List Char
  | 0, _ => []
  | f + 1, n => if n = 0 then [] else natToHexAux f (n / 16) ++ [hexDigitOf (n % 16)]

/-- Minimal lowercase hex representation of `n`, as produced by bn.js
`toString("hex")` (without `0x`; `"0"` for zero). -/
def natToHexLower (n : Nat) : String :=
  if n = 0 then "0" else String.mk (natToHexAux (n + 1) n)

/-- JavaScript `String.prototype.padStart(len, c)`: left-pad to `len`
characters; strings already at least `len` long are returned unchanged. -/
def padStart (s : String) (len : Nat) (c : Char) : String :=
  String.mk (List.replicate (len - s.length) c ++ s.data)

/-- JavaScript `s.slice(a, b)` for `0 ≤ a ≤ b` (the only shape the sources
use with two arguments): characters `a` to `b-1`, clamped to the string. -/
def jsSlice (s : String) (a b : Nat) : String :=
  String.mk ((s.data.drop a).take (b - a))

/-- JavaScript `s.slice(a)` for `a ≥ 0`: drop the first `a` characters. -/
def jsSliceFrom (s : String) (a : Nat) : String :=
  String.mk (s.data.drop a)

/-- JavaScript `s.slice(s.length - 2)` (used on the signature in
`generateKeyPair`).  For `s.length ≥ 2` this is the last two characters;
for shorter strings JavaScript clamps the negative start to 0, which
coincides with truncated `Nat` subtraction. -/
def sliceLast2 (s : String) : String :=
  String.mk (s.data.drop (s.data.length - 2))

/-- ethers `isHexString(value)` (identical in v5 and v6 for string
arguments): the string must match `^0x[0-9A-Fa-f]*$`. -/
def ethIsHexString (s : String) : Bool :=
  match s.data with
  | c1 :: c2 :: rest => c1 == '0' && c2 == 'x' && rest.all isHexDig
  | _ => false

/-- Is `x.isOk`?  (Avoids needing decidable equality of `Except`.) -/
def isOkE {ε α : Type} (x : Except ε α) : Bool :=
  match x with
  | .ok _ => true
  | .error _ => false

/-- Embeds `padHex` (src/utils/utils.js lines 27-33):

```js
module.exports.padHex = (hex, bytes = 32) => {
  if (!isHexString(hex)) throw new Error("Input is not a valid hex string");
  if (hex.slice(0, 2) === "0x") {
    throw new Error("Input must not contain 0x prefix");
  }
  return hex.padStart(bytes * 2, 0);
};
```

`isHexString` here is the one destructured from the ethers package, whose
string acceptance is `^0x[0-9A-Fa-f]*$`. -/
def padHex (hex : String) (bytes : Nat := 32) : Except String String :=
  if ¬ ethIsHexString hex then .error "Input is not a valid hex string"
  else if jsSlice hex 0 2 = "0x" then .error "Input must not contain 0x prefix"
  else .ok (padStart hex (bytes * 2) '0')

/-- The `lengths` constants of src/utils/utils.js. -/
def lengths : Nat × Nat × Nat × Nat := (42, 66, 66, 132)

def lengthsPrivateKey : Nat := 66

def lengthsPublicKey : Nat := 132

def secpP : Nat := 0xfffffffffffffffffffffffffffffffffffffffffffffffffffffffefffffc2f

def secpN : Nat := 0xfffffffffffffffffffffffffffffffebaaedce6af48a03bbfd25e8cd0364141

def secpGx : Nat := 0x79be667ef9dcbbac55a06295ce870b07029bfcdb2dce28d959f2815b16f81798

def secpGy : Nat := 0x483ada7726a3c4655da4fbfc0e1108a8fd17b448a68554199c47d08ffb10d4b8

/-- Field multiplication mod `secpP`. -/
def fmul (a b : Nat) : Nat := a * b % secpP

/-- Field subtraction mod `secpP` (self-reducing in both arguments). -/
def fsub (a b : Nat) : Nat := (a % secpP + (secpP - b % secpP)) % secpP

/-- Field negation mod `secpP`. -/
def fneg (a : Nat) : Nat := (secpP - a % secpP) % secpP

/-- Binary modular exponentiation, fuel-bounded so that it is structural
(and hence reducible by the kernel).  `fuel > log2 exponent` suffices. -/
def powModAux (m : Nat) : Nat → Nat → Nat → Nat
  | 0, _, _ => 1 % m
  | f + 1, a, b =>
      if b = 0 then 1 % m
      else
        let h := powModAux m f (a * a % m) (b / 2)
        if b % 2 = 1 then h * a % m else h

/-- `a ^ b % m`, computed by binary exponentiation. -/
def powMod (m a b : Nat) : Nat := powModAux m (b + 1) a b

/-- Field inverse mod `secpP` by Fermat's little theorem, as the curve
libraries compute it. -/
def finv (a : Nat) : Nat := powMod secpP a (secpP - 2)

/-- Affine point: `none` is the point at infinity. -/
abbrev AffPt := Option (Nat × Nat)

/-- Group law (addition) on the curve `y^2 = x^3 + 7` mod `secpP`. -/
def pAdd : AffPt → AffPt → AffPt
  | none, q => q
  | some p, none => some p
  | some (x1, y1), some (x2, y2) =>
      if x1 = x2 then
        if (y1 + y2) % secpP = 0 then none
        else
          let l := fmul (fmul 3 (fmul x1 x1)) (finv (fmul 2 y1))
          let x3 := fsub (fsub (fmul l l) x1) x2
          some (x3, fsub (fmul l (fsub x1 x3)) y1)
      else
        let l := fmul (fsub y2 y1) (finv (fsub x2 x1))
        let x3 := fsub (fsub (fmul l l) x1) x2
        some (x3, fsub (fmul l (fsub x1 x3)) y1)

/-- Group law (doubling). -/
def pDouble : AffPt → AffPt
  | none => none
  | some (x1, y1) =>
      if (y1 + y1) % secpP = 0 then none
      else
        let l := fmul (fmul 3 (fmul x1 x1)) (finv (fmul 2 y1))
        let x3 := fsub (fsub (fmul l l) x1) x1
        some (x3, fsub (fmul l (fsub x1 x3)) y1)

/-- Point negation. -/
def pNeg : AffPt → AffPt
  | none => none
  | some (x, y) => some (x, fneg y)

/-- Fuel-bounded binary double-and-add. -/
def scalarMulAux : Nat → Nat → AffPt → AffPt
  | 0, _, _ => none
  | f + 1, k, p =>
      if k = 0 then none
      else
        let r := scalarMulAux f (k / 2) (pDouble p)
        if k % 2 = 1 then pAdd p r else r

/-- `k · p` for any 256-bit scalar `k` (fuel 257 covers `k < 2^257`). -/
def scalarMul (k : Nat) (p : AffPt) : AffPt := scalarMulAux 257 k p

def M32 : Nat := 4294967296

def add32 (a b : Nat) : Nat := (a + b) % M32

def rotr32 (n x : Nat) : Nat := x / 2 ^ n + x % 2 ^ n * 2 ^ (32 - n)

def shr32 (n x : Nat) : Nat := x / 2 ^ n

def xor32 (a b : Nat) : Nat := Nat.xor a b

def and32 (a b : Nat) : Nat := Nat.land a b

def not32 (a : Nat) : Nat := Nat.xor a (M32 - 1)

def shaSmall0 (x : Nat) : Nat := xor32 (xor32 (rotr32 7 x) (rotr32 18 x)) (shr32 3 x)

def shaSmall1 (x : Nat) : Nat := xor32 (xor32 (rotr32 17 x) (rotr32 19 x)) (shr32 10 x)

def shaBig0 (x : Nat) : Nat := xor32 (xor32 (rotr32 2 x) (rotr32 13 x)) (rotr32 22 x)

def shaBig1 (x : Nat) : Nat := xor32 (xor32 (rotr32 6 x) (rotr32 11 x)) (rotr32 25 x)

def shaCh (e f g : Nat) : Nat := xor32 (and32 e f) (and32 (not32 e) g)

def shaMaj (a b c : Nat) : Nat := xor32 (xor32 (and32 a b) (and32 a c)) (and32 b c)

def shaK : List Nat :=
  [1116352408, 1899447441, 3049323471, 3921009573, 961987163,
   1508970993, 2453635748, 2870763221, 3624381080, 310598401,
   607225278, 1426881987, 1925078388, 2162078206, 2614888103,
   3248222580, 3835390401, 4022224774, 264347078, 604807628,
   770255983, 1249150122, 1555081692, 1996064986, 2554220882,
   2821834349, 2952996808, 3210313671, 3336571891, 3584528711,
   113926993, 338241895, 666307205, 773529912, 1294757372,
   1396182291, 1695183700, 1986661051, 2177026350, 2456956037,
   2730485921, 2820302411, 3259730800, 3345764771, 3516065817,
   3600352804, 4094571909, 275423344, 430227734, 506948616,
   659060556, 883997877, 958139571, 1322822218, 1537002063,
   1747873779, 1955562222, 2024104815, 2227730452, 2361852424,
   2428436474, 2756734187, 3204031479, 3329325298]

def shaH0 : List Nat :=
  [1779033703, 3144134277, 1013904242, 2773480762,
   1359893119, 2600822924, 528734635, 1541459225]

/-- Big-endian 32-bit words from a byte list. -/
def bytesToWords : List Nat → List Nat
  | a :: b :: c :: d :: rest => (((a * 256 + b) * 256 + c) * 256 + d) :: bytesToWords rest
  | _ => []

/-- Message-schedule extension (48 rounds of fuel). -/
def extendW : Nat → List Nat → List Nat
  | 0, w => w
  | f + 1, w =>
      let n := w.length
      let wi := add32 (add32 (shaSmall1 (w.getD (n - 2) 0)) (w.getD (n - 7) 0))
        (add32 (shaSmall0 (w.getD (n - 15) 0)) (w.getD (n - 16) 0))
      extendW f (w ++ [wi])

def shaRound (st : Nat × Nat × Nat × Nat × Nat × Nat × Nat × Nat) (kw : Nat × Nat) :
    Nat × Nat × Nat × Nat × Nat × Nat × Nat × Nat :=
  let (a, b, c, d, e, f, g, h) := st
  let t1 := add32 h (add32 (shaBig1 e) (add32 (shaCh e f g) (add32 kw.1 kw.2)))
  let t2 := add32 (shaBig0 a) (shaMaj a b c)
  (add32 t1 t2, a, b, c, add32 d t1, e, f, g)

def shaProcessBlock (h : List Nat) (block : List Nat) : List Nat :=
  let fin := (List.zip shaK (extendW 48 (bytesToWords block))).foldl shaRound
    (h.getD 0 0, h.getD 1 0, h.getD 2 0, h.getD 3 0,
     h.getD 4 0, h.getD 5 0, h.getD 6 0, h.getD 7 0)
  [add32 (h.getD 0 0) fin.1, add32 (h.getD 1 0) fin.2.1, add32 (h.getD 2 0) fin.2.2.1,
   add32 (h.getD 3 0) fin.2.2.2.1, add32 (h.getD 4 0) fin.2.2.2.2.1,
   add32 (h.getD 5 0) fin.2.2.2.2.2.1, add32 (h.getD 6 0) fin.2.2.2.2.2.2.1,
   add32 (h.getD 7 0) fin.2.2.2.2.2.2.2]

def shaBlocks : Nat → List Nat → List Nat → List Nat
  | 0, h, _ => h
  | f + 1, h, msg =>
      if msg.isEmpty then h
      else shaBlocks f (shaProcessBlock h (msg.take 64)) (msg.drop 64)

/-- Big-endian byte expansion of `n` into `len` bytes. -/
def natToBytesBE (len n : Nat) : List Nat :=
  (List.range len).map (fun i => n / 2 ^ (8 * (len - 1 - i)) % 256)

def sha256Padded (msg : List Nat) : List Nat :=
  let L := msg.length
  let k := (56 + 64 - (L + 1) % 64) % 64
  msg ++ [0x80] ++ List.replicate k 0 ++ natToBytesBE 8 (8 * L)

/-- SHA-256 digest of a byte list, as a 256-bit `Nat`. -/
def sha256Nat (msg : List Nat) : Nat :=
  let blocks := sha256Padded msg
  (shaBlocks (blocks.length + 1) shaH0 blocks).foldl (fun acc w => acc * M32 + w) 0

/-- Left-pad to 64 hex characters. -/
def pad64 (s : String) : String := padStart s 64 '0'

/-- SHA-256 digest in the format ethers returns: `0x` plus 64 lowercase
hex characters. -/
def sha256HexOut (msg : List Nat) : String := "0x" ++ pad64 (natToHexLower (sha256Nat msg))

/-- Bytes of a prefix-free even-length hex digit list. -/
def hexPairs : List Char → List Nat
  | a :: b :: rest => (hexCharVal a * 16 + hexCharVal b) :: hexPairs rest
  | _ => []

/-- ethers `sha256(BytesLike)`: requires a `0x`-prefixed even-length hex
string, hashes its bytes; otherwise throws. -/
def ethersSha256 (s : String) : Except String String :=
  if ethIsHexString s ∧ s.length % 2 = 0 then
    .ok (sha256HexOut (hexPairs (s.data.drop 2)))
  else .error "invalid BytesLike value"

/-- Right-hand side `x^3 + 7` of the curve equation, reduced mod `secpP`. -/
def curveRHS (x : Nat) : Nat := (x * x % secpP * x + 7) % secpP

/-- bn.js `redSqrt` fast path for `p ≡ 3 (mod 4)`: the candidate root
`t^((p+1)/4)`. -/
def sqrtCand (x : Nat) : Nat := powMod secpP (curveRHS x) ((secpP + 1) / 4)

/-- elliptic `curve.pointFromX` for secp256k1 (`a = 0`, `b = 7`): the
candidate root is computed by the `p ≡ 3 (mod 4)` power, verified
(elliptic throws "invalid point" if the square check fails), and its
parity adjusted to the requested sign via `redNeg`. -/
def pointFromXmodel (x : Nat) (odd : Bool) : Except String (Nat × Nat) :=
  if sqrtCand (x % secpP) * sqrtCand (x % secpP) % secpP = curveRHS (x % secpP) then
    .ok (x % secpP,
      if odd != decide (sqrtCand (x % secpP) % 2 = 1) then fneg (sqrtCand (x % secpP))
      else sqrtCand (x % secpP))
  else .error "invalid point"

/-- `0x` plus elliptic `point.encode("hex", false)`: uncompressed
`04 ‖ x ‖ y` with 32-byte big-endian coordinates. -/
def uncompressedHexOfPt (p : Nat × Nat) : String :=
  "0x04" ++ pad64 (natToHexLower p.1) ++ pad64 (natToHexLower p.2)

/-- noble `toRawBytes(true)` as hex: `02/03 ‖ x` by parity of `y`. -/
def compressedHexOfPoint (p : Nat × Nat) : String :=
  (if p.2 % 2 = 0 then "02" else "03") ++ pad64 (natToHexLower p.1)

/-- ethers v5 `BigNumber.toHexString()`: minimal hex, padded to an even
number of digits, `0x` prefixed. -/
def bnToHexString (n : Nat) : String :=
  let h := natToHexLower n
  "0x" ++ (if h.length % 2 = 1 then "0" ++ h else h)

/-- ethers v5 `hexZeroPad(value, length)`: requires a hex string no
longer than `length` bytes and left-pads it with zeros. -/
def hexZeroPad (value : String) (len : Nat) : Except String String :=
  if ¬ ethIsHexString value then .error "invalid hex string"
  else if 2 * len + 2 < value.length then .error "value out of range"
  else .ok ("0x" ++ padStart (jsSliceFrom value 2) (2 * len) '0')

def decStrVal (l : List Char) : Nat :=
  l.foldl (fun a c => a * 10 + (c.toNat - '0'.toNat)) 0

/-- ethers v5 `BigNumber.from(string)`: `0x`-prefixed hex (at least one
digit) or a decimal digit string; anything else throws. -/
def bigNumberFromString (s : String) : Except String Nat :=
  if ethIsHexString s ∧ 2 < s.length then .ok (hexValL (s.data.drop 2))
  else if s.data ≠ [] ∧ s.data.all Char.isDigit then .ok (decStrVal s.data)
  else .error "invalid BigNumber string"

/-- Embeds `KeyPair.getUncompressedFromX` (src/classes/KeyPair.js lines
139-157) after the `BigNumber.from(pkx)` conversion: zero-pad the
x-coordinate to 32 bytes, rebuild the point from the requested sign
byte (`02` assumed when no sign is given), and return the uncompressed
encoding. -/
def getUncompressedFromXCore (v : Nat) (signB : Option Nat) : Except String String :=
  (hexZeroPad (bnToHexString v) 32).bind fun padded =>
    let hexTail := jsSliceFrom padded 2
    match signB with
    | none => (pointFromXmodel (hexToNat hexTail) false).map uncompressedHexOfPt
    | some q =>
        if q = 2 then (pointFromXmodel (hexToNat hexTail) false).map uncompressedHexOfPt
        else if q = 3 then (pointFromXmodel (hexToNat hexTail) true).map uncompressedHexOfPt
        else .error "Unknown point format"

/-- `KeyPair.getUncompressedFromX` on a string x-coordinate (announcement
`pkx`): `BigNumber.from` then the core reconstruction. -/
def KeyPair.getUncompressedFromX (pkx : String) (signB : Option Nat) : Except String String :=
  (bigNumberFromString pkx).bind fun v => getUncompressedFromXCore v signB

/-- noble `ProjectivePoint.fromHex` on an uncompressed `04 ‖ x ‖ y` hex
string (no `0x`), including its field-element range checks and the curve
equation check. -/
def noblePointFromHexU (h : String) : Except String (Nat × Nat) :=
  if h.length = 130 ∧ jsSlice h 0 2 = "04" then
    let x := hexToNat (jsSlice h 2 66)
    let y := hexToNat (jsSlice h 66 130)
    if 0 < x ∧ x < secpP ∧ 0 < y ∧ y < secpP then
      if y * y % secpP = curveRHS x then .ok (x, y)
      else .error "bad point: equation left != right"
    else .error "bad point: x or y not FE"
  else .error "Point of length 65 expected"

/-- noble `getSharedSecret(privA, pubB, true)`: validate the scalar
against the group order, parse and validate the public point, multiply,
and return the compressed encoding of the result. -/
def nobleGetSharedSecret (privHex pubHex : String) : Except String String :=
  let d := hexToNat privHex
  if d = 0 ∨ secpN ≤ d then .error "invalid private key"
  else
    (noblePointFromHexU pubHex).bind fun pt =>
      match scalarMul d (some pt) with
      | none => .error "point at infinity"
      | some q => .ok (compressedHexOfPoint q)

/-- Embeds `KeyPair.getSharedSecret` (src/classes/KeyPair.js lines
266-290): length/format checks, noble ECDH on the unprefixed hex, then
`sha256` of the compressed shared point with its sign byte dropped. -/
def getSharedSecretFn (privateKey publicKey : String) : Except String String :=
  if privateKey.length ≠ lengthsPrivateKey ∨ ¬ ethIsHexString privateKey then
    .error "Invalid private key"
  else if publicKey.length ≠ lengthsPublicKey ∨ ¬ ethIsHexString publicKey then
    .error "Invalid public key"
  else
    (nobleGetSharedSecret (jsSliceFrom privateKey 2) (jsSliceFrom publicKey 2)).bind
      fun sharedSecretHex => ethersSha256 ("0x" ++ jsSliceFrom sharedSecretHex 2)

def M64 : Nat := 18446744073709551616

def xor64 (a b : Nat) : Nat := Nat.xor a b

def not64 (a : Nat) : Nat := Nat.xor a (M64 - 1)

def rotl64 (n x : Nat) : Nat := (x * 2 ^ n + x / 2 ^ (64 - n)) % M64

def kRC : List Nat :=
  [1, 32898, 9223372036854808714,
   9223372039002292224, 32907, 2147483649,
   9223372039002292353, 9223372036854808585, 138,
   136, 2147516425, 2147483658,
   2147516555, 9223372036854775947, 9223372036854808713,
   9223372036854808579, 9223372036854808578, 9223372036854775936,
   32778, 9223372039002259466, 9223372039002292353,
   9223372036854808704, 2147483649, 9223372039002292232]

def kRotOff : List Nat :=
  [0, 1, 62, 28, 27] ++ [36, 44, 6, 55, 20] ++ [3, 10, 43, 25, 39]
    ++ [41, 45, 15, 21, 8] ++ [18, 2, 61, 56, 14]

def kTheta (A : List Nat) : List Nat :=
  let C := (List.range 5).map (fun x =>
    xor64 (xor64 (xor64 (xor64 (A.getD x 0) (A.getD (x + 5) 0)) (A.getD (x + 10) 0))
      (A.getD (x + 15) 0)) (A.getD (x + 20) 0))
  let D := (List.range 5).map (fun x =>
    xor64 (C.getD ((x + 4) % 5) 0) (rotl64 1 (C.getD ((x + 1) % 5) 0)))
  (List.range 25).map (fun i => xor64 (A.getD i 0) (D.getD (i % 5) 0))

def kRhoPi (A : List Nat) : List Nat :=
  (List.range 25).map (fun t =>
    let tx := t % 5
    let ty := t / 5
    let src := (tx + 3 * ty) % 5 + 5 * tx
    rotl64 (kRotOff.getD src 0) (A.getD src 0))

def kChi (B : List Nat) : List Nat :=
  (List.range 25).map (fun i =>
    let x := i % 5
    let y := i / 5
    xor64 (B.getD i 0) (Nat.land (not64 (B.getD ((x + 1) % 5 + 5 * y) 0))
      (B.getD ((x + 2) % 5 + 5 * y) 0)))

def kRound (A : List Nat) (rc : Nat) : List Nat :=
  match kChi (kRhoPi (kTheta A)) with
  | a0 :: rest => xor64 a0 rc :: rest
  | [] => []

def keccakF (A : List Nat) : List Nat := kRC.foldl kRound A

def keccakPad (msg : List Nat) : List Nat :=
  let r := 136 - msg.length % 136
  if r = 1 then msg ++ [0x81]
  else msg ++ [0x01] ++ List.replicate (r - 2) 0 ++ [0x80]

def bytesToLanes : List Nat → List Nat
  | b0 :: b1 :: b2 :: b3 :: b4 :: b5 :: b6 :: b7 :: rest =>
      (b0 + 256 * (b1 + 256 * (b2 + 256 * (b3 + 256 * (b4 + 256 * (b5 + 256
        * (b6 + 256 * b7))))))) :: bytesToLanes rest
  | _ => []

def keccakAbsorb : Nat → List Nat → List Nat → List Nat
  | 0, st, _ => st
  | f + 1, st, msg =>
      if msg.isEmpty then st
      else
        let block := bytesToLanes (msg.take 136)
        let st1 := (List.range 25).map (fun i => xor64 (st.getD i 0) (block.getD i 0))
        keccakAbsorb f (keccakF st1) (msg.drop 136)

def laneToBytesLE (x : Nat) : List Nat := (List.range 8).map (fun i => x / 2 ^ (8 * i) % 256)

/-- Keccak-256 digest (js-sha3 `keccak256`) of a byte list, as 32 bytes. -/
def keccak256Bytes (msg : List Nat) : List Nat :=
  let padded := keccakPad msg
  let st := keccakAbsorb (padded.length + 136) (List.replicate 25 0) padded
  ((st.take 4).map laneToBytesLE).flatten

def bytesToHexStr (bs : List Nat) : String :=
  String.mk (bs.foldr (fun b acc => hexDigitOf (b / 16) :: hexDigitOf (b % 16) :: acc) [])

/-- State of a `KeyPair` instance: the constructor stores
`privateKeyHex` only on the private-key path, and always stores
`publicKeyHex` (`0x04`-prefixed uncompressed hex).  The other stored
forms (`privateKeyHexSlim`, `privateKeyEC`, `privateKeyBN`) are direct
functions of `privateKeyHex` and are recomputed where used. -/
structure KeyPair where
  privateKeyHex : Option String
  publicKeyHex : String

/-- ethers `getAddress`: EIP-55 checksum of a 40-hex-digit address
(uppercase a letter exactly when the matching nibble of the Keccak-256
hash of the lowercase address text is at least 8). -/
def toChecksumAddress (addr40 : List Char) : String :=
  let hashed := keccak256Bytes (addr40.map Char.toNat)
  "0x" ++ String.mk ((List.range 40).map (fun i =>
    let c := addr40.getD i ' '
    let nib := if i % 2 = 0 then hashed.getD (i / 2) 0 / 16 else hashed.getD (i / 2) 0 % 16
    if 8 ≤ nib then c.toUpper else c))

/-- Embeds the `address` getter (src/classes/KeyPair.js lines 117-122):
Keccak-256 of the 64 coordinate bytes, last 20 bytes, checksummed. -/
def KeyPair.address (kp : KeyPair) : String :=
  let bytes := hexPairs (kp.publicKeyHex.data.drop 4)
  let hash := keccak256Bytes bytes
  let addrBytes := hash.drop (hash.length - 20)
  toChecksumAddress (bytesToHexStr addrBytes).data

/-- Embeds the `KeyPair` constructor (src/classes/KeyPair.js lines
29-61).  On the 66-character (private key) path the code computes
`publicKey = ec.g.mul(privateKeyHexSlim)` and then zero-pads the
coordinates with `padHex`; `getX()` on the point at infinity throws a
`TypeError` inside elliptic, and `padHex` rejects the prefix-free
coordinate hex, so this path never returns. -/
def newKeyPair (key : String) : Except String KeyPair :=
  if ¬ ethIsHexString key then .error "Key must be in hex format with 0x prefix"
  else if key.length = 66 then
    match scalarMul (hexToNat (jsSliceFrom key 2)) (some (secpGx, secpGy)) with
    | none => .error "TypeError: cannot read coordinates of the point at infinity"
    | some pub =>
        match padHex (natToHexLower pub.1) 32 with
        | .error e => .error e
        | .ok xs =>
            match padHex (natToHexLower pub.2) 32 with
            | .error e => .error e
            | .ok ys => .ok { privateKeyHex := some key, publicKeyHex := "0x04" ++ xs ++ ys }
  else if key.length = 132 then
    .ok { privateKeyHex := none, publicKeyHex := key }
  else
    .error "Key must be a 66 character private key, a 132 character public key, or a transaction hash with isTxHash set to true"

/-- The `publicKeyHexSlim` getter. -/
def KeyPair.publicKeyHexSlim (kp : KeyPair) : String := jsSliceFrom kp.publicKeyHex 4

/-- The `publicKeyHexCoordsSlim` getter: both coordinate slices go
through `padHex` (prefix-free input), so this getter always throws. -/
def KeyPair.publicKeyHexCoordsSlim (kp : KeyPair) : Except String (String × String) :=
  (padHex (jsSlice kp.publicKeyHexSlim 0 64) 32).bind fun x =>
    (padHex (jsSliceFrom kp.publicKeyHexSlim 64) 32).map fun y => (x, y)

/-- Modelled from the spec: `RandomNumber` (src/classes/RandomNumber.js
is required by src/utils/Transaction.js and src/index.js but is absent
from src/).  Per spec §3/§4.2 it wraps a single 32-byte integer `value`
drawn from a cryptographically secure source, exposed as a zero-padded
32-byte hex string (`asHex` with the `0x` prefix, `asHexSlim` without)
and as a big integer for arithmetic.  The sampled value is an explicit
argument here. -/
structure RandomNumber where
  value : Nat

def RandomNumber.asHexSlim (r : RandomNumber) : String := pad64 (natToHexLower r.value)

def RandomNumber.asHex (r : RandomNumber) : String := "0x" ++ r.asHexSlim

/-- The dynamically-typed `value` argument of `mulPublicKey` and
`mulPrivateKey`: a hex string or a `RandomNumber` instance. -/
inductive MulArg where
  | str (s : String)
  | rnd (r : RandomNumber)

/-- Embeds `mulPublicKey` (src/classes/KeyPair.js lines 236-245).  The
`number` line never throws (a plain string lacking `asHexSlim` just
yields `undefined`, modeled as `""`, and is never consumed because the
`publicKeyEC` getter throws first, inside `publicKeyHexCoordsSlim`). -/
def mulArgSlim (value : MulArg) : String :=
  match value with
  | .str s => if ethIsHexString s then jsSliceFrom s 2 else ""
  | .rnd r => r.asHexSlim

def KeyPair.mulPublicKey (kp : KeyPair) (value : MulArg) : Except String KeyPair :=
  kp.publicKeyHexCoordsSlim.bind fun coords =>
    match scalarMul (hexToNat (mulArgSlim value)) (some (hexToNat coords.1, hexToNat coords.2)) with
    | none => .error "TypeError: cannot read coordinates of the point at infinity"
    | some pub =>
        (padHex (natToHexLower pub.1) 32).bind fun x =>
          (padHex (natToHexLower pub.2) 32).bind fun y =>
            newKeyPair ("0x04" ++ x ++ y)

/-- Embeds `mulPrivateKey` (src/classes/KeyPair.js lines 252-264).  On a
public-key-only instance `this.privateKeyBN` is `undefined`, so the
`.mul` call raises a `TypeError`; on a private instance the product is
reduced mod the curve order and re-padded through `padHex` (which always
throws on the prefix-free slice). -/
def mulArgFull (value : MulArg) : Option String :=
  match value with
  | .str s => if ethIsHexString s then some s else none
  | .rnd r => some r.asHex

def KeyPair.mulPrivateKey (kp : KeyPair) (value : MulArg) : Except String KeyPair :=
  match kp.privateKeyHex with
  | none => .error "TypeError: Cannot read properties of undefined"
  | some priv =>
      match mulArgFull value with
      | none => .error "invalid BigNumber value"
      | some number =>
          (bigNumberFromString number).bind fun nval =>
            let privateKeyFull := hexToNat (jsSliceFrom priv 2) * nval
            let privateKeyMod := privateKeyFull % secpN
            (padHex (jsSliceFrom (bnToHexString privateKeyMod) 2) 32).bind fun padded =>
              newKeyPair ("0x" ++ padded)

/-- Embeds the static `compressPublicKey` (src/classes/KeyPair.js lines
166-183): decode the (compressed or uncompressed) public key with
elliptic and return the sign byte as a number together with the
`0x`-prefixed x-coordinate. -/
def KeyPair.compressPublicKey (uncompressedPublicKey : String) : Except String (Nat × String) :=
  let hx := jsSliceFrom uncompressedPublicKey 2
  if hx.length = 130 ∧ jsSlice hx 0 2 = "04" then
    .ok (if hexToNat (jsSlice hx 66 130) % secpP % 2 = 0 then 2 else 3,
      "0x" ++ pad64 (natToHexLower (hexToNat (jsSlice hx 2 66) % secpP)))
  else if hx.length = 66 ∧ (jsSlice hx 0 2 = "02" ∨ jsSlice hx 0 2 = "03") then
    (pointFromXmodel (hexToNat (jsSlice hx 2 66)) (decide (jsSlice hx 0 2 = "03"))).map
      fun p => ((if p.2 % 2 = 0 then 2 else 3 : Nat), "0x" ++ pad64 (natToHexLower p.1))
  else .error "Unknown point format"

/-- Output record of `encrypt`. -/
structure EncryptedPayload where
  ephemeralPublicKey : String
  ciphertext : String

/-- Embeds `encrypt` (src/classes/KeyPair.js lines 186-206).  noble's
`utils.randomPrivateKey()` is the explicit `ephemeralPrivateKey`
argument; `ProjectivePoint.fromPrivateKey` validates it against the
group order; `ephemeralPublicKey.toHex()` returns the *compressed*
encoding (noble's default).  The random number is XORed with the
hashed shared secret and zero-padded to 32 bytes. -/
def KeyPair.encrypt (kp : KeyPair) (ephemeralPrivateKey : Nat) (number : RandomNumber) :
    Except String EncryptedPayload :=
  if ephemeralPrivateKey = 0 ∨ secpN ≤ ephemeralPrivateKey then .error "invalid private key"
  else
    match scalarMul ephemeralPrivateKey (some (secpGx, secpGy)) with
    | none => .error "point at infinity"
    | some ephPub =>
        (getSharedSecretFn ("0x" ++ pad64 (natToHexLower ephemeralPrivateKey))
            kp.publicKeyHex).bind fun sharedSecret =>
          (bigNumberFromString sharedSecret).bind fun secVal =>
            (hexZeroPad (bnToHexString (Nat.xor number.value secVal)) 32).map fun ct =>
              { ephemeralPublicKey := "0x" ++ compressedHexOfPoint ephPub, ciphertext := ct }

/-- Embeds `decrypt` (src/classes/KeyPair.js lines 212-228): requires a
non-empty payload and a private key, recomputes the shared secret and
XORs it with the ciphertext. -/
def KeyPair.decrypt (kp : KeyPair) (output : EncryptedPayload) : Except String String :=
  if output.ephemeralPublicKey = "" ∨ output.ciphertext = "" then
    .error "Input must be of type EncryptedPayload to decrypt"
  else
    match kp.privateKeyHex with
    | none => .error "KeyPair has no associated private key to decrypt with"
    | some priv =>
        (getSharedSecretFn priv output.ephemeralPublicKey).bind fun sharedSecret =>
          (bigNumberFromString output.ciphertext).bind fun ct =>
            (bigNumberFromString sharedSecret).bind fun secVal =>
              hexZeroPad (bnToHexString (Nat.xor ct secVal)) 32

structure GeneratedKeys where
  spendingKeyPair : KeyPair
  viewingKeyPair : KeyPair

/-- Embeds `generateKeyPair` (src/utils/Transaction.js lines 6-24):
slice the signature into `r`, `s` and `v`, require the reassembled
string to equal the input, hash `r` and `s` with ethers `sha256`, and
construct the two key pairs from the digests. -/
def generateKeyPair (signature : String) : Except String GeneratedKeys :=
  if ("0x" ++ jsSlice signature 2 66 ++ jsSlice signature 66 130 ++ sliceLast2 signature)
      ≠ signature then
    .error "Signature incorrectly generated or parsed"
  else
    (ethersSha256 ("0x" ++ jsSlice signature 2 66)).bind fun spendingPrivateKey =>
      (ethersSha256 ("0x" ++ jsSlice signature 66 130)).bind fun viewingPrivateKey =>
        (newKeyPair spendingPrivateKey).bind fun spendingKeyPair =>
          (newKeyPair viewingPrivateKey).map fun viewingKeyPair =>
            { spendingKeyPair := spendingKeyPair, viewingKeyPair := viewingKeyPair }

/-- External collaborator (spec section 6): the registry contract's
`stealthKeys(registrant)` view, returning the four stored words
(spendingPubKeyPrefix, spendingPubKey, viewingPubKeyPrefix,
viewingPubKey); an `.error` models a provider or network failure. -/
def StealthContract : Type := String → Except String (Nat × Nat × Nat × Nat)

/-- Embeds `StealthKeyRegistry.getStealthKeys` (src/classes/StealthKeyRegistry.js
lines 31-62): read the four words, throw if any is zero, decompress both
compressed public keys with `KeyPair.getUncompressedFromX`. -/
def getStealthKeysR (contract : StealthContract) (account : String) :
    Except String (String × String) :=
  (contract account).bind fun keys =>
    if keys.1 = 0 ∨ keys.2.1 = 0 ∨ keys.2.2.1 = 0 ∨ keys.2.2.2 = 0 then
      .error "Address has not registered stealth keys. Please ask them to setup their an account"
    else
      (getUncompressedFromXCore keys.2.1 (some keys.1)).bind fun spendingPublicKey =>
        (getUncompressedFromXCore keys.2.2.2 (some keys.2.2.1)).map fun viewingPublicKey =>
          (spendingPublicKey, viewingPublicKey)

structure PrepareSendResult where
  stealthKeyPair : KeyPair
  pubKeyXCoordinate : String
  encrypted : EncryptedPayload

/-- Embeds `prepareSend` (src/utils/Transaction.js lines 26-57): look up
the recipient's keys, throw if either is falsy, generate and encrypt a
random number under the viewing key, compress the ephemeral key, and
derive the stealth key pair by `mulPublicKey`.  The fresh randomness
(`new RandomNumber()` and noble's ephemeral key inside `encrypt`) is
passed explicitly. -/
def prepareSend (contract : StealthContract) (recipientId : String)
    (randomNumber : RandomNumber) (ephemeralPrivateKey : Nat) :
    Except String PrepareSendResult :=
  (getStealthKeysR contract recipientId).bind fun keys =>
    if keys.1 = "" ∨ keys.2 = "" then
      .error "Could not retrieve public keys for recipient ID"
    else
      (newKeyPair keys.1).bind fun spendingKeyPair =>
        (newKeyPair keys.2).bind fun viewingKeyPair =>
          (KeyPair.encrypt viewingKeyPair ephemeralPrivateKey randomNumber).bind
            fun encrypted =>
              (KeyPair.compressPublicKey encrypted.ephemeralPublicKey).bind fun comp =>
                (KeyPair.mulPublicKey spendingKeyPair (.rnd randomNumber)).map
                  fun stealthKeyPair =>
                    { stealthKeyPair := stealthKeyPair, pubKeyXCoordinate := comp.2,
                      encrypted := encrypted }

structure Announcement where
  pkx : String
  ciphertext : String
  receiver : String
  tokenAddress : String
  amount : String

structure FundsResult where
  isForUser : Bool
  randomNumber : String
  ephemeralPubkey : String
  stealthAddress : String
  tokenAddress : String
  businessTokenAddress : String
  amountOrId : String

/-- The record the catch block of `IsUsersFunds` returns. -/
def emptyFundsResult : FundsResult :=
  { isForUser := false, randomNumber := "", ephemeralPubkey := "", stealthAddress := "",
    tokenAddress := "", businessTokenAddress := "", amountOrId := "" }

/-- The try-block of `IsUsersFunds` (src/utils/Transaction.js lines
65-91): reconstruct the ephemeral key from the announcement's
x-coordinate (no sign byte), decrypt the ciphertext with the viewing
private key, look up the sender's spending key, recompute the candidate
receiving address, and build the result object.  The result-object
literal names the undefined identifier `businessTokenAddress`, so its
evaluation raises a ReferenceError inside the try block; the fields
evaluated before it would have been `isForUser :=
(computedReceivingAddress == receiver)`, `randomNumber := ciphertext`
(the ciphertext verbatim, not the decrypted random number),
`ephemeralPubkey := pkx`, `stealthAddress := computedReceivingAddress`
and `tokenAddress`. -/
def IsUsersFundsBody (announcement : Announcement) (contract : StealthContract)
    (viewingPrivateKey : String) (sender : String) : Except String FundsResult :=
  (KeyPair.getUncompressedFromX announcement.pkx none).bind fun uncompressedPubKey =>
    (newKeyPair viewingPrivateKey).bind fun viewkey =>
      (KeyPair.decrypt viewkey ⟨uncompressedPubKey, announcement.ciphertext⟩).bind
        fun randomNumber =>
        (getStealthKeysR contract sender).bind fun keys =>
          (newKeyPair keys.1).bind fun spendingkey =>
            (KeyPair.mulPublicKey spendingkey (.str randomNumber)).bind fun mulRes =>
              let computedReceivingAddress := mulRes.address
              let _isForUser := computedReceivingAddress == announcement.receiver
              .error "ReferenceError: businessTokenAddress is not defined"

/-- Embeds `IsUsersFunds` (src/utils/Transaction.js lines 59-103): the
whole body runs inside try/catch, and the catch returns the all-empty
non-match record. -/
def IsUsersFunds (announcement : Announcement) (contract : StealthContract)
    (viewingPrivateKey : String) (sender : String) : FundsResult :=
  match IsUsersFundsBody announcement contract viewingPrivateKey sender with
  | .ok r => r
  | .error _ => emptyFundsResult


/-! ## Theorems -/

theorem ethIsHexString_data {s : String} (h : ethIsHexString s = true) :
    ∃ rest, s.data = '0' :: 'x' :: rest := by
  unfold ethIsHexString at h
  rcases hs : s.data with _ | ⟨c, _ | ⟨d, rest⟩⟩ <;> rw [hs] at h
  · simp at h
  · simp at h
  · simp only [Bool.and_eq_true, beq_iff_eq] at h
    obtain ⟨⟨h0, h1⟩, -⟩ := h
    subst h0; subst h1
    exact ⟨rest, rfl⟩

theorem slice02_of_hexString {s : String} (h : ethIsHexString s = true) :
    jsSlice s 0 2 = "0x" := by
  obtain ⟨rest, hd⟩ := ethIsHexString_data h
  unfold jsSlice
  rw [hd]
  rfl

/-- padHex always fails: a prefix-free string fails the `isHexString`
check (which demands a `0x` prefix), while a prefixed string fails the
explicit no-prefix check. -/
theorem padHex_never_ok (s : String) (bytes : Nat) :
    ∃ e, padHex s bytes = .error e := by
  unfold padHex
  by_cases h : ethIsHexString s = true
  · exact ⟨"Input must not contain 0x prefix", by
      simp [h, slice02_of_hexString h]⟩
  · exact ⟨"Input is not a valid hex string", by
      simp [h]⟩

/-- C9: `padHex` raises an error for every string input and every byte
length: an input carrying the `0x` prefix passes the ethers `isHexString`
test but is rejected by the explicit prefix check, and an input without
the prefix is already rejected by `isHexString`, which only accepts
strings starting with `0x`.  No input ever reaches the padding branch. -/
theorem padHex_always_errors (s : String) (bytes : Nat) :
    ∃ e, padHex s bytes = .error e :=
  padHex_never_ok s bytes

/-- C8 (claim refuted at a concrete input): for the plain hex-digit input
`"ab"` and byte length 32 the claim predicts the 64-character output
`"00…0ab"`, but `padHex` raises "Input is not a valid hex string", because
the hex-validity predicate it uses only accepts `0x`-prefixed strings.
The padding branch of `padHex` is unreachable for every input. -/
theorem padHex_ab_errors :
    padHex "ab" 32 = .error "Input is not a valid hex string" := by
  rfl

theorem secpP_pos : 0 < secpP := by decide

theorem fsub_lt (a b : Nat) : fsub a b < secpP := Nat.mod_lt _ secpP_pos

theorem fneg_lt (a : Nat) : fneg a < secpP := Nat.mod_lt _ secpP_pos

theorem fmul_lt (a b : Nat) : fmul a b < secpP := Nat.mod_lt _ secpP_pos

theorem cast_fmul (a b : Nat) :
    ((fmul a b : Nat) : ZMod secpP) = (a : ZMod secpP) * b := by
  unfold fmul
  rw [ZMod.natCast_mod, Nat.cast_mul]

theorem cast_fsub (a b : Nat) :
    ((fsub a b : Nat) : ZMod secpP) = (a : ZMod secpP) - b := by
  unfold fsub
  rw [ZMod.natCast_mod, Nat.cast_add, Nat.cast_sub (Nat.mod_lt _ secpP_pos).le,
    ZMod.natCast_mod, ZMod.natCast_mod, ZMod.natCast_self]
  ring

theorem cast_fneg (a : Nat) :
    ((fneg a : Nat) : ZMod secpP) = -(a : ZMod secpP) := by
  unfold fneg
  rw [ZMod.natCast_mod, Nat.cast_sub (Nat.mod_lt _ secpP_pos).le,
    ZMod.natCast_mod, ZMod.natCast_self]
  ring

theorem powModAux_cast (m : Nat) :
    ∀ f a b, b < 2 ^ f →
      ((powModAux m f a b : Nat) : ZMod m) = (a : ZMod m) ^ b := by
  intro f
  induction f with
  | zero =>
      intro a b hb
      interval_cases b
      simp [powModAux]
  | succ f ih =>
      intro a b hb
      unfold powModAux
      by_cases hb0 : b = 0
      · simp [hb0]
      · have hdiv : b / 2 < 2 ^ f := by
          rw [Nat.div_lt_iff_lt_mul (by norm_num)]
          calc b < 2 ^ (f + 1) := hb
            _ = 2 ^ f * 2 := by ring
        have hcast := ih (a * a % m) (b / 2) hdiv
        rw [ZMod.natCast_mod, Nat.cast_mul] at hcast
        by_cases hpar : b % 2 = 1
        · simp only [hb0, if_false, hpar, if_true]
          rw [ZMod.natCast_mod, Nat.cast_mul, hcast]
          have : (a : ZMod m) * a = a ^ 2 := by ring
          rw [this, ← pow_mul, ← pow_succ]
          congr 1
          omega
        · simp only [hb0, if_false, hpar, if_false]
          rw [hcast]
          have : (a : ZMod m) * a = a ^ 2 := by ring
          rw [this, ← pow_mul]
          congr 1
          omega

theorem powMod_cast (m a b : Nat) :
    ((powMod m a b : Nat) : ZMod m) = (a : ZMod m) ^ b := by
  unfold powMod
  exact powModAux_cast m (b + 1) a b
    (lt_of_lt_of_le (Nat.lt_two_pow b) (Nat.pow_le_pow_right (by norm_num) (Nat.le_succ b)))

theorem powModAux_lt (m : Nat) (hm : 0 < m) :
    ∀ f a b, powModAux m f a b < m := by
  intro f
  induction f with
  | zero => intro a b; exact Nat.mod_lt _ hm
  | succ f ih =>
      intro a b
      unfold powModAux
      by_cases hb0 : b = 0
      · simp only [hb0, if_true]
        exact Nat.mod_lt _ hm
      · simp only [hb0, if_false]
        by_cases hpar : b % 2 = 1
        · simp only [hpar, if_true]
          exact Nat.mod_lt _ hm
        · simp only [hpar, if_false]
          exact ih _ _

theorem secpPsub2_odd : Odd (secpP - 2) := by
  rw [Nat.odd_iff]
  decide

theorem cast_finv (a : Nat) :
    ((finv a : Nat) : ZMod secpP) = (a : ZMod secpP) ^ (secpP - 2) := by
  unfold finv
  exact powMod_cast secpP a (secpP - 2)

theorem cast_finv_neg (a : Nat) :
    ((finv (fneg a) : Nat) : ZMod secpP) = -((finv a : Nat) : ZMod secpP) := by
  rw [cast_finv, cast_finv, cast_fneg, Odd.neg_pow secpPsub2_odd]

theorem mod_cast_injP {a b : Nat} (ha : a < secpP) (hb : b < secpP)
    (h : (a : ZMod secpP) = (b : ZMod secpP)) : a = b := by
  rw [← Nat.mod_eq_of_lt ha, ← Nat.mod_eq_of_lt hb]
  exact (ZMod.natCast_eq_natCast_iff' a b secpP).mp h

theorem modP_zero_iff (e : Nat) : e % secpP = 0 ↔ ((e : Nat) : ZMod secpP) = 0 := by
  rw [ZMod.natCast_zmod_eq_zero_iff_dvd, Nat.dvd_iff_mod_eq_zero]

theorem neg_cond_iff (y1 y2 : Nat) :
    ((fneg y1 + fneg y2) % secpP = 0) ↔ ((y1 + y2) % secpP = 0) := by
  rw [modP_zero_iff, modP_zero_iff, Nat.cast_add, Nat.cast_add,
    cast_fneg, cast_fneg, ← neg_add, neg_eq_zero]

/-- Tail of the addition/doubling formulas: if the slope is negated, the
output x-coordinate is unchanged and the output y-coordinate is negated. -/
theorem slope_tail_neg (l l' x1 x2 y1 : Nat)
    (hl : (l' : ZMod secpP) = -(l : ZMod secpP)) :
    fsub (fsub (fmul l' l') x1) x2 = fsub (fsub (fmul l l) x1) x2 ∧
    fsub (fmul l' (fsub x1 (fsub (fsub (fmul l l) x1) x2))) (fneg y1)
      = fneg (fsub (fmul l (fsub x1 (fsub (fsub (fmul l l) x1) x2))) y1) := by
  constructor
  · apply mod_cast_injP (fsub_lt _ _) (fsub_lt _ _)
    simp only [cast_fsub, cast_fmul]
    rw [hl]
    ring
  · apply mod_cast_injP (fsub_lt _ _) (fneg_lt _)
    simp only [cast_fneg, cast_fsub, cast_fmul]
    rw [hl]
    ring

theorem doubling_slope_neg (x1 y1 : Nat) :
    ((fmul (fmul 3 (fmul x1 x1)) (finv (fmul 2 (fneg y1))) : Nat) : ZMod secpP)
      = -((fmul (fmul 3 (fmul x1 x1)) (finv (fmul 2 y1)) : Nat) : ZMod secpP) := by
  have harg : fmul 2 (fneg y1) = fneg (fmul 2 y1) := by
    apply mod_cast_injP (fmul_lt _ _) (fneg_lt _)
    simp only [cast_fmul, cast_fneg]
    ring
  rw [harg]
  simp only [cast_fmul, cast_finv_neg]
  ring

theorem chord_slope_neg (x1 x2 y1 y2 : Nat) :
    ((fmul (fsub (fneg y2) (fneg y1)) (finv (fsub x2 x1)) : Nat) : ZMod secpP)
      = -((fmul (fsub y2 y1) (finv (fsub x2 x1)) : Nat) : ZMod secpP) := by
  rw [cast_fmul, cast_fmul, cast_fsub, cast_fsub, cast_fneg, cast_fneg]
  ring

theorem pAdd_neg (p q : AffPt) : pAdd (pNeg p) (pNeg q) = pNeg (pAdd p q) := by
  match p, q with
  | none, q => cases q <;> rfl
  | some (x1, y1), none => rfl
  | some (x1, y1), some (x2, y2) =>
      show pAdd (some (x1, fneg y1)) (some (x2, fneg y2))
        = pNeg (pAdd (some (x1, y1)) (some (x2, y2)))
      unfold pAdd
      by_cases hx : x1 = x2
      · by_cases hy : (y1 + y2) % secpP = 0
        · simp only [hx, if_true, hy, (neg_cond_iff y1 y2).mpr hy, if_true]
          rfl
        · have hy' : ¬ (fneg y1 + fneg y2) % secpP = 0 := by
            intro hcon
            exact hy ((neg_cond_iff y1 y2).mp hcon)
          simp only [hx, if_true, hy, hy', if_false]
          obtain ⟨hx3, hy3⟩ := slope_tail_neg _ _ x2 x2 y1 (doubling_slope_neg x2 y1)
          simp only [pNeg]
          rw [hx3]
          rw [hy3]
      · simp only [hx, if_false]
        obtain ⟨hx3, hy3⟩ := slope_tail_neg _ _ x1 x2 y1 (chord_slope_neg x1 x2 y1 y2)
        simp only [pNeg]
        rw [hx3]
        rw [hy3]

theorem pDouble_neg (p : AffPt) : pDouble (pNeg p) = pNeg (pDouble p) := by
  match p with
  | none => rfl
  | some (x1, y1) =>
      show pDouble (some (x1, fneg y1)) = pNeg (pDouble (some (x1, y1)))
      unfold pDouble
      by_cases hy : (y1 + y1) % secpP = 0
      · simp only [hy, (neg_cond_iff y1 y1).mpr hy, if_true]
        rfl
      · have hy' : ¬ (fneg y1 + fneg y1) % secpP = 0 := by
          intro hcon
          exact hy ((neg_cond_iff y1 y1).mp hcon)
        simp only [hy, hy', if_false]
        obtain ⟨hx3, hy3⟩ := slope_tail_neg _ _ x1 x1 y1 (doubling_slope_neg x1 y1)
        simp only [pNeg]
        rw [hx3]
        rw [hy3]

theorem scalarMulAux_neg :
    ∀ f k p, scalarMulAux f k (pNeg p) = pNeg (scalarMulAux f k p) := by
  intro f
  induction f with
  | zero => intro k p; rfl
  | succ f ih =>
      intro k p
      unfold scalarMulAux
      by_cases hk : k = 0
      · simp only [hk, if_true]
        rfl
      · simp only [hk, if_false]
        rw [pDouble_neg, ih]
        by_cases hpar : k % 2 = 1
        · simp only [hpar, if_true]
          exact pAdd_neg p (scalarMulAux f (k / 2) (pDouble p))
        · simp only [hpar, if_false]

theorem scalarMul_neg (k : Nat) (p : AffPt) :
    scalarMul k (pNeg p) = pNeg (scalarMul k p) :=
  scalarMulAux_neg 257 k p

theorem hexCharVal_hexDigitOf {d : Nat} (h : d < 16) :
    hexCharVal (hexDigitOf d) = d := by
  interval_cases d <;> decide

theorem isHexDig_hexDigitOf {d : Nat} (h : d < 16) :
    isHexDig (hexDigitOf d) = true := by
  interval_cases d <;> decide

theorem hexValL_append_single (l : List Char) (c : Char) :
    hexValL (l ++ [c]) = hexValL l * 16 + hexCharVal c := by
  unfold hexValL
  rw [List.foldl_append]
  rfl

theorem natToHexAux_val : ∀ f n, n < 16 ^ f → hexValL (natToHexAux f n) = n := by
  intro f
  induction f with
  | zero =>
      intro n hn
      interval_cases n
      rfl
  | succ f ih =>
      intro n hn
      unfold natToHexAux
      by_cases hn0 : n = 0
      · simp [hn0, hexValL]
      · simp only [hn0, if_false]
        rw [hexValL_append_single, ih (n / 16) (by
          rw [Nat.div_lt_iff_lt_mul (by norm_num)]
          calc n < 16 ^ (f + 1) := hn
            _ = 16 ^ f * 16 := by ring),
          hexCharVal_hexDigitOf (Nat.mod_lt n (by norm_num))]
        omega

theorem natToHexAux_len : ∀ f n k, n < 16 ^ k → (natToHexAux f n).length ≤ k := by
  intro f
  induction f with
  | zero => intro n k _; simp [natToHexAux]
  | succ f ih =>
      intro n k hn
      unfold natToHexAux
      by_cases hn0 : n = 0
      · simp [hn0]
      · simp only [hn0, if_false, List.length_append, List.length_cons,
          List.length_nil]
        match k with
        | 0 => omega
        | k + 1 =>
            have : n / 16 < 16 ^ k := by
              rw [Nat.div_lt_iff_lt_mul (by norm_num)]
              calc n < 16 ^ (k + 1) := hn
                _ = 16 ^ k * 16 := by ring
            have := ih (n / 16) k this
            omega

theorem natToHexAux_hex : ∀ f n, (natToHexAux f n).all isHexDig = true := by
  intro f
  induction f with
  | zero => intro n; rfl
  | succ f ih =>
      intro n
      unfold natToHexAux
      by_cases hn0 : n = 0
      · simp [hn0]
      · simp only [hn0, if_false, List.all_append, ih, Bool.true_and,
          List.all_cons, List.all_nil, Bool.and_true]
        exact isHexDig_hexDigitOf (Nat.mod_lt n (by norm_num))

theorem hexValL_zeros (k : Nat) (l : List Char) :
    hexValL (List.replicate k '0' ++ l) = hexValL l := by
  induction k with
  | zero => rfl
  | succ k ih =>
      show hexValL ('0' :: (List.replicate k '0' ++ l)) = hexValL l
      unfold hexValL at *
      simp only [List.foldl_cons]
      have : hexCharVal '0' = 0 := by decide
      rw [this]
      exact ih

theorem two_pow_256_le_16_pow_64 : (2 : Nat) ^ 256 = 16 ^ 64 := by
  norm_num

theorem lt_16_pow_succ (n : Nat) : n < 16 ^ (n + 1) :=
  lt_of_lt_of_le (Nat.lt_two_pow n)
    (le_trans (Nat.pow_le_pow_left (by norm_num) n)
      (Nat.pow_le_pow_right (by norm_num) (Nat.le_succ n)))

/-- Roundtrip: parsing the zero-padded minimal hex of `n < 2^256` gives
back `n`. -/
theorem hexValL_pad64 (n : Nat) :
    hexValL (pad64 (natToHexLower n)).data = n := by
  unfold pad64 padStart
  show hexValL (List.replicate (64 - (natToHexLower n).length) '0' ++ (natToHexLower n).data) = n
  rw [hexValL_zeros]
  unfold natToHexLower
  by_cases hn0 : n = 0
  · simp only [hn0, if_true]
    decide
  · simp only [hn0, if_false]
    exact natToHexAux_val (n + 1) n (lt_16_pow_succ n)

theorem pad64_len {n : Nat} (h : n < 2 ^ 256) :
    (pad64 (natToHexLower n)).length = 64 := by
  have h16 : n < 16 ^ 64 := by rw [← two_pow_256_le_16_pow_64]; exact h
  unfold pad64 padStart
  show (List.replicate (64 - (natToHexLower n).length) '0' ++ (natToHexLower n).data).length = 64
  rw [List.length_append, List.length_replicate]
  have hbridge : (natToHexLower n).data.length = (natToHexLower n).length := rfl
  have hlen : (natToHexLower n).length ≤ 64 := by
    unfold natToHexLower
    by_cases hn0 : n = 0
    · simp only [hn0, if_true]
      decide
    · simp only [hn0, if_false]
      exact natToHexAux_len (n + 1) n 64 h16
  omega

theorem pad64_hex (n : Nat) :
    (pad64 (natToHexLower n)).data.all isHexDig = true := by
  unfold pad64 padStart
  show (List.replicate (64 - (natToHexLower n).length) '0' ++ (natToHexLower n).data).all isHexDig = true
  rw [List.all_append]
  have hz : (List.replicate (64 - (natToHexLower n).length) '0').all isHexDig = true := by
    rw [List.all_eq_true]
    intro c hc
    rw [List.eq_of_mem_replicate hc]
    decide
  rw [hz, Bool.true_and]
  unfold natToHexLower
  by_cases hn0 : n = 0
  · simp only [hn0, if_true]
    decide
  · simp only [hn0, if_false]
    exact natToHexAux_hex (n + 1) n

theorem secpP_lt_two_pow : secpP < 2 ^ 256 := by decide

theorem powMod_lt (m a b : Nat) (hm : 0 < m) : powMod m a b < m :=
  powModAux_lt m hm (b + 1) a b

theorem fneg_fneg {a : Nat} (h : a < secpP) : fneg (fneg a) = a :=
  mod_cast_injP (fneg_lt _) h (by rw [cast_fneg, cast_fneg, neg_neg])

theorem fneg_sq_mod (y : Nat) : fneg y * fneg y % secpP = y * y % secpP := by
  have hc : ((fneg y * fneg y : Nat) : ZMod secpP) = ((y * y : Nat) : ZMod secpP) := by
    rw [Nat.cast_mul, Nat.cast_mul, cast_fneg]
    ring
  exact (ZMod.natCast_eq_natCast_iff' _ _ _).mp hc

theorem fneg_pos_iff {y : Nat} (hy : y < secpP) : 0 < fneg y ↔ 0 < y := by
  have hp := secpP_pos
  unfold fneg
  rw [Nat.mod_eq_of_lt hy]
  rcases Nat.eq_zero_or_pos y with h0 | hpos
  · subst h0
    simp [Nat.mod_self]
  · have h1 : secpP - y < secpP := by omega
    rw [Nat.mod_eq_of_lt h1]
    omega

theorem uncomp_data (x y : Nat) :
    (uncompressedHexOfPt (x, y)).data
      = '0' :: 'x' :: '0' :: '4' ::
          ((pad64 (natToHexLower x)).data ++ (pad64 (natToHexLower y)).data) := by
  show (("0x04" ++ pad64 (natToHexLower x)) ++ pad64 (natToHexLower y)).data = _
  rw [show (("0x04" ++ pad64 (natToHexLower x)) ++ pad64 (natToHexLower y)).data
      = ("0x04".data ++ (pad64 (natToHexLower x)).data) ++ (pad64 (natToHexLower y)).data
      from rfl]
  rw [List.append_assoc]
  rfl

theorem pad64_data_len {n : Nat} (h : n < 2 ^ 256) :
    (pad64 (natToHexLower n)).data.length = 64 := pad64_len h

theorem uncomp_len {x y : Nat} (hx : x < 2 ^ 256) (hy : y < 2 ^ 256) :
    (uncompressedHexOfPt (x, y)).length = 132 := by
  show (uncompressedHexOfPt (x, y)).data.length = 132
  rw [uncomp_data]
  simp only [List.length_cons, List.length_append, pad64_data_len hx, pad64_data_len hy]

theorem ethIsHexString_of {s : String} {rest : List Char}
    (hd : s.data = '0' :: 'x' :: rest) (hall : rest.all isHexDig = true) :
    ethIsHexString s = true := by
  unfold ethIsHexString
  rw [hd]
  simp [hall]

theorem uncomp_hex (x y : Nat) : ethIsHexString (uncompressedHexOfPt (x, y)) = true := by
  refine ethIsHexString_of (uncomp_data x y) ?_
  simp only [List.all_cons, List.all_append, pad64_hex, Bool.and_true, Bool.true_and]
  decide

theorem uncompTail_data (x y : Nat) :
    (jsSliceFrom (uncompressedHexOfPt (x, y)) 2).data
      = '0' :: '4' :: ((pad64 (natToHexLower x)).data ++ (pad64 (natToHexLower y)).data) := by
  unfold jsSliceFrom
  rw [uncomp_data]
  rfl

theorem uncompTail_len {x y : Nat} (hx : x < 2 ^ 256) (hy : y < 2 ^ 256) :
    (jsSliceFrom (uncompressedHexOfPt (x, y)) 2).length = 130 := by
  show (jsSliceFrom (uncompressedHexOfPt (x, y)) 2).data.length = 130
  rw [uncompTail_data]
  simp only [List.length_cons, List.length_append, pad64_data_len hx, pad64_data_len hy]

theorem uncompTail_04 (x y : Nat) :
    jsSlice (jsSliceFrom (uncompressedHexOfPt (x, y)) 2) 0 2 = "04" := by
  unfold jsSlice
  rw [show (jsSliceFrom (uncompressedHexOfPt (x, y)) 2).data
      = '0' :: '4' :: ((pad64 (natToHexLower x)).data ++ (pad64 (natToHexLower y)).data)
      from uncompTail_data x y]
  rfl

theorem uncompTail_x {x : Nat} (y : Nat) (hx : x < 2 ^ 256) :
    hexToNat (jsSlice (jsSliceFrom (uncompressedHexOfPt (x, y)) 2) 2 66) = x := by
  unfold jsSlice
  rw [show (jsSliceFrom (uncompressedHexOfPt (x, y)) 2).data
      = '0' :: '4' :: ((pad64 (natToHexLower x)).data ++ (pad64 (natToHexLower y)).data)
      from uncompTail_data x y]
  show hexToNat (String.mk (((pad64 (natToHexLower x)).data
    ++ (pad64 (natToHexLower y)).data).take 64)) = x
  rw [List.take_left' (pad64_data_len hx)]
  exact hexValL_pad64 x

theorem uncompTail_y (x : Nat) {y : Nat} (hx : x < 2 ^ 256) (hy : y < 2 ^ 256) :
    hexToNat (jsSlice (jsSliceFrom (uncompressedHexOfPt (x, y)) 2) 66 130) = y := by
  unfold jsSlice
  rw [show (jsSliceFrom (uncompressedHexOfPt (x, y)) 2).data
      = '0' :: '4' :: ((pad64 (natToHexLower x)).data ++ (pad64 (natToHexLower y)).data)
      from uncompTail_data x y]
  show hexToNat (String.mk ((((pad64 (natToHexLower x)).data
    ++ (pad64 (natToHexLower y)).data).drop 64).take 64)) = y
  rw [List.drop_left' (pad64_data_len hx)]
  rw [List.take_of_length_le (le_of_eq (pad64_data_len hy))]
  exact hexValL_pad64 y

theorem noblePointFromHexU_parsed {h : String} {x y : Nat}
    (hlen : h.length = 130) (h04 : jsSlice h 0 2 = "04")
    (hx : hexToNat (jsSlice h 2 66) = x) (hy : hexToNat (jsSlice h 66 130) = y) :
    noblePointFromHexU h =
      (if 0 < x ∧ x < secpP ∧ 0 < y ∧ y < secpP then
        if y * y % secpP = curveRHS x then .ok (x, y)
        else .error "bad point: equation left != right"
      else .error "bad point: x or y not FE") := by
  unfold noblePointFromHexU
  rw [if_pos ⟨hlen, h04⟩, hx, hy]

theorem slice2_comp (X Y : Nat) :
    jsSliceFrom (compressedHexOfPoint (X, Y)) 2 = pad64 (natToHexLower X) := by
  unfold compressedHexOfPoint jsSliceFrom
  by_cases hp : (X, Y).2 % 2 = 0
  · rw [if_pos hp]
    rfl
  · rw [if_neg hp]
    rfl

theorem nobleHash_fneg (dhex : String) (x y : Nat) (hx : x < secpP) (hy : y < secpP) :
    (nobleGetSharedSecret dhex (jsSliceFrom (uncompressedHexOfPt (x, y)) 2)).bind
        (fun sec => ethersSha256 ("0x" ++ jsSliceFrom sec 2))
      = (nobleGetSharedSecret dhex (jsSliceFrom (uncompressedHexOfPt (x, fneg y)) 2)).bind
        (fun sec => ethersSha256 ("0x" ++ jsSliceFrom sec 2)) := by
  have hx2 : x < 2 ^ 256 := lt_trans hx secpP_lt_two_pow
  have hy2 : y < 2 ^ 256 := lt_trans hy secpP_lt_two_pow
  have hfy2 : fneg y < 2 ^ 256 := lt_trans (fneg_lt y) secpP_lt_two_pow
  unfold nobleGetSharedSecret
  by_cases hd : hexToNat dhex = 0 ∨ secpN ≤ hexToNat dhex
  · rw [if_pos hd, if_pos hd]
  · rw [if_neg hd, if_neg hd]
    rw [noblePointFromHexU_parsed (uncompTail_len hx2 hy2) (uncompTail_04 x y)
      (uncompTail_x y hx2) (uncompTail_y x hx2 hy2)]
    rw [noblePointFromHexU_parsed (uncompTail_len hx2 hfy2) (uncompTail_04 x (fneg y))
      (uncompTail_x (fneg y) hx2) (uncompTail_y x hx2 hfy2)]
    by_cases hfe : 0 < x ∧ x < secpP ∧ 0 < y ∧ y < secpP
    · have hfe' : 0 < x ∧ x < secpP ∧ 0 < fneg y ∧ fneg y < secpP :=
        ⟨hfe.1, hfe.2.1, (fneg_pos_iff hy).mpr hfe.2.2.1, fneg_lt y⟩
      rw [if_pos hfe, if_pos hfe', fneg_sq_mod]
      by_cases hcv : y * y % secpP = curveRHS x
      · rw [if_pos hcv, if_pos hcv]
        have hneg : scalarMul (hexToNat dhex) (some (x, fneg y))
            = pNeg (scalarMul (hexToNat dhex) (some (x, y))) := by
          rw [show (some (x, fneg y) : AffPt) = pNeg (some (x, y)) from rfl,
            scalarMul_neg]
        show (match scalarMul (hexToNat dhex) (some (x, y)) with
            | none => Except.error "point at infinity"
            | some q => Except.ok (compressedHexOfPoint q)).bind
            (fun sec => ethersSha256 ("0x" ++ jsSliceFrom sec 2))
          = (match scalarMul (hexToNat dhex) (some (x, fneg y)) with
            | none => Except.error "point at infinity"
            | some q => Except.ok (compressedHexOfPoint q)).bind
            (fun sec => ethersSha256 ("0x" ++ jsSliceFrom sec 2))
        rw [hneg]
        cases hsm : scalarMul (hexToNat dhex) (some (x, y)) with
        | none => rfl
        | some q =>
            obtain ⟨X, Y⟩ := q
            show ethersSha256 ("0x" ++ jsSliceFrom (compressedHexOfPoint (X, Y)) 2)
              = ethersSha256 ("0x" ++ jsSliceFrom (compressedHexOfPoint (X, fneg Y)) 2)
            rw [slice2_comp, slice2_comp]
      · rw [if_neg hcv, if_neg hcv]
    · have hfe' : ¬ (0 < x ∧ x < secpP ∧ 0 < fneg y ∧ fneg y < secpP) := by
        intro hcon
        exact hfe ⟨hcon.1, hcon.2.1, (fneg_pos_iff hy).mp hcon.2.2.1, hy⟩
      rw [if_neg hfe, if_neg hfe']

theorem getSharedSecretFn_fneg (priv : String) (x y : Nat)
    (hx : x < secpP) (hy : y < secpP) :
    getSharedSecretFn priv (uncompressedHexOfPt (x, y))
      = getSharedSecretFn priv (uncompressedHexOfPt (x, fneg y)) := by
  have hx2 : x < 2 ^ 256 := lt_trans hx secpP_lt_two_pow
  have hy2 : y < 2 ^ 256 := lt_trans hy secpP_lt_two_pow
  have hfy2 : fneg y < 2 ^ 256 := lt_trans (fneg_lt y) secpP_lt_two_pow
  unfold getSharedSecretFn
  by_cases hpk : priv.length ≠ lengthsPrivateKey ∨ ¬ ethIsHexString priv
  · rw [if_pos hpk, if_pos hpk]
  · rw [if_neg hpk, if_neg hpk]
    have hc1 : ¬ ((uncompressedHexOfPt (x, y)).length ≠ lengthsPublicKey
        ∨ ¬ ethIsHexString (uncompressedHexOfPt (x, y))) := by
      rw [uncomp_len hx2 hy2, uncomp_hex]
      simp [lengthsPublicKey]
    have hc2 : ¬ ((uncompressedHexOfPt (x, fneg y)).length ≠ lengthsPublicKey
        ∨ ¬ ethIsHexString (uncompressedHexOfPt (x, fneg y))) := by
      rw [uncomp_len hx2 hfy2, uncomp_hex]
      simp [lengthsPublicKey]
    rw [if_neg hc1, if_neg hc2]
    exact nobleHash_fneg (jsSliceFrom priv 2) x y hx hy

theorem sqrtCand_lt (t : Nat) : sqrtCand t < secpP :=
  powMod_lt _ _ _ secpP_pos

theorem pointFromXmodel_ok {x : Nat} {odd : Bool} {p : Nat × Nat}
    (h : pointFromXmodel x odd = .ok p) : p.1 < secpP ∧ p.2 < secpP := by
  unfold pointFromXmodel at h
  by_cases hc : sqrtCand (x % secpP) * sqrtCand (x % secpP) % secpP = curveRHS (x % secpP)
  · rw [if_pos hc] at h
    have hp : (x % secpP,
        if odd != decide (sqrtCand (x % secpP) % 2 = 1) then fneg (sqrtCand (x % secpP))
        else sqrtCand (x % secpP)) = p := by
      exact Except.ok.inj h
    rw [← hp]
    refine ⟨Nat.mod_lt _ secpP_pos, ?_⟩
    show (if odd != decide (sqrtCand (x % secpP) % 2 = 1) then fneg (sqrtCand (x % secpP))
        else sqrtCand (x % secpP)) < secpP
    by_cases hb : (odd != decide (sqrtCand (x % secpP) % 2 = 1)) = true
    · rw [if_pos hb]
      exact fneg_lt _
    · rw [if_neg hb]
      exact sqrtCand_lt _
  · rw [if_neg hc] at h
    exact Except.noConfusion h

theorem pointFromX_odd_neg (x : Nat) :
    pointFromXmodel x true = (pointFromXmodel x false).map (fun p => (p.1, fneg p.2)) := by
  unfold pointFromXmodel
  by_cases hc : sqrtCand (x % secpP) * sqrtCand (x % secpP) % secpP = curveRHS (x % secpP)
  · rw [if_pos hc, if_pos hc]
    cases hb : decide (sqrtCand (x % secpP) % 2 = 1) with
    | true =>
        simp only [Except.map]
        simp
        rw [fneg_fneg (sqrtCand_lt _)]
    | false =>
        simp only [Except.map]
        simp
  · rw [if_neg hc, if_neg hc]
    rfl

theorem errE_bind {ε α β : Type} (e : ε) (f : α → Except ε β) :
    (Except.error e).bind f = .error e := rfl

theorem okE_bind {ε α β : Type} (a : α) (f : α → Except ε β) :
    (Except.ok a).bind f = f a := rfl

theorem errE_map {ε α β : Type} (e : ε) (f : α → β) :
    (Except.error e : Except ε α).map f = .error e := rfl

theorem okE_map {ε α β : Type} (a : α) (f : α → β) :
    (Except.ok a : Except ε α).map f = .ok (f a) := rfl

theorem shared_secret_sign_eq (pkx priv : String) :
    (KeyPair.getUncompressedFromX pkx (some 2)).bind (getSharedSecretFn priv)
      = (KeyPair.getUncompressedFromX pkx (some 3)).bind (getSharedSecretFn priv) := by
  unfold KeyPair.getUncompressedFromX
  cases hbn : bigNumberFromString pkx with
  | error e => simp only [errE_bind]
  | ok v =>
      simp only [okE_bind]
      show (getUncompressedFromXCore v (some 2)).bind (getSharedSecretFn priv)
        = (getUncompressedFromXCore v (some 3)).bind (getSharedSecretFn priv)
      unfold getUncompressedFromXCore
      cases hzp : hexZeroPad (bnToHexString v) 32 with
      | error e => simp only [errE_bind]
      | ok padded =>
          simp only [okE_bind]
          show ((pointFromXmodel (hexToNat (jsSliceFrom padded 2)) false).map
              uncompressedHexOfPt).bind (getSharedSecretFn priv)
            = ((pointFromXmodel (hexToNat (jsSliceFrom padded 2)) true).map
              uncompressedHexOfPt).bind (getSharedSecretFn priv)
          rw [pointFromX_odd_neg]
          cases hpf : pointFromXmodel (hexToNat (jsSliceFrom padded 2)) false with
          | error e => simp only [errE_map, errE_bind]
          | ok p =>
              obtain ⟨a, b⟩ := p
              obtain ⟨ha, hb⟩ := pointFromXmodel_ok hpf
              simp only [okE_map, okE_bind]
              exact getSharedSecretFn_fneg priv a b ha hb

/-- C5: the shared secret computed by `getSharedSecret` does not depend
on which sign byte (`02` or `03`) is assumed when reconstructing a
public key from its x-coordinate, because the hash is taken over the
compressed encoding of the ECDH point with the sign byte sliced off:
`d·(-P) = -(d·P)` shares its x-coordinate with `d·P`.  The first
conjunct states the equality for every x-coordinate string and every
private key string (error outcomes also coincide); the second conjunct
shows the pipeline genuinely succeeds on the curve point with
x-coordinate `Gx` and private key 2, so the equality is not vacuous. -/
theorem getSharedSecret_sign_byte_independent :
    (∀ pkx priv,
      (KeyPair.getUncompressedFromX pkx (some 2)).bind (getSharedSecretFn priv)
        = (KeyPair.getUncompressedFromX pkx (some 3)).bind (getSharedSecretFn priv)) ∧
    isOkE ((KeyPair.getUncompressedFromX
        "0x79be667ef9dcbbac55a06295ce870b07029bfcdb2dce28d959f2815b16f81798" (some 2)).bind
      (getSharedSecretFn
        "0x0000000000000000000000000000000000000000000000000000000000000002")) = true :=
  ⟨shared_secret_sign_eq, by decide⟩

theorem newKeyPair_66_fails (key : String) (h : key.length = 66) :
    isOkE (newKeyPair key) = false := by
  unfold newKeyPair
  by_cases hx : ethIsHexString key = true
  · rw [if_neg (not_not_intro hx), if_pos h]
    cases hsm : scalarMul (hexToNat (jsSliceFrom key 2)) (some (secpGx, secpGy)) with
    | none => rfl
    | some pub =>
        obtain ⟨e, he⟩ := padHex_never_ok (natToHexLower pub.1) 32
        simp only [he]
        rfl
  · rw [if_pos hx]
    rfl

theorem newKeyPair_ok_public {key : String} {kp : KeyPair}
    (h : newKeyPair key = .ok kp) : kp.privateKeyHex = none := by
  unfold newKeyPair at h
  by_cases hx : ethIsHexString key = true
  · rw [if_neg (not_not_intro hx)] at h
    by_cases h66 : key.length = 66
    · rw [if_pos h66] at h
      cases hsm : scalarMul (hexToNat (jsSliceFrom key 2)) (some (secpGx, secpGy)) with
      | none => rw [hsm] at h; exact Except.noConfusion h
      | some pub =>
          rw [hsm] at h
          obtain ⟨e, he⟩ := padHex_never_ok (natToHexLower pub.1) 32
          simp only [he] at h
          exact Except.noConfusion h
    · rw [if_neg h66] at h
      by_cases h132 : key.length = 132
      · rw [if_pos h132] at h
        have := Except.ok.inj h
        rw [← this]
      · rw [if_neg h132] at h
        exact Except.noConfusion h
  · rw [if_pos hx] at h
    exact Except.noConfusion h

theorem coordsSlim_fails (kp : KeyPair) :
    ∃ e, kp.publicKeyHexCoordsSlim = .error e := by
  obtain ⟨e, he⟩ := padHex_never_ok (jsSlice kp.publicKeyHexSlim 0 64) 32
  exact ⟨e, by unfold KeyPair.publicKeyHexCoordsSlim; rw [he]; rfl⟩

theorem mulPublicKey_fails (kp : KeyPair) (v : MulArg) :
    isOkE (kp.mulPublicKey v) = false := by
  obtain ⟨e, he⟩ := coordsSlim_fails kp
  unfold KeyPair.mulPublicKey
  rw [he]
  rfl

theorem decrypt_fails_of_public {key : String} {kp : KeyPair}
    (h : newKeyPair key = .ok kp) (out : EncryptedPayload) :
    isOkE (kp.decrypt out) = false := by
  unfold KeyPair.decrypt
  by_cases hf : out.ephemeralPublicKey = "" ∨ out.ciphertext = ""
  · rw [if_pos hf]
    rfl
  · rw [if_neg hf, newKeyPair_ok_public h]
    rfl

/-- C6 (code bug, evaluated at the failing input): constructing a
KeyPair from the valid private scalar 1 does not store `1 · G` — it
raises "Input is not a valid hex string", because the constructor pads
the computed public-key coordinates with `padHex`, which rejects its
prefix-free input.  The second conjunct shows every 66-character input
fails the same way (so the claimed range validation of `[1, n-1]` cannot
be observed: the code contains no such check, and even in-range scalars
throw); the third conjunct is the part of the claim the code does
satisfy: any length other than 66 or 132 is rejected. -/
theorem keyPair_constructor_validation_vs_code :
    newKeyPair "0x0000000000000000000000000000000000000000000000000000000000000001"
      = .error "Input is not a valid hex string"
    ∧ (∀ key, key.length = 66 → isOkE (newKeyPair key) = false)
    ∧ (∀ key, key.length ≠ 66 → key.length ≠ 132 → isOkE (newKeyPair key) = false) := by
  refine ⟨by rfl, newKeyPair_66_fails, ?_⟩
  intro key h66 h132
  unfold newKeyPair
  by_cases hx : ethIsHexString key = true
  · rw [if_neg (not_not_intro hx), if_neg h66, if_neg h132]
    rfl
  · rw [if_pos hx]
    rfl

theorem keyPair_constructor_validation_vs_code_witness :
    isOkE (newKeyPair "0x000000000000000000000000000000000000000000000000000000000000000a")
      = false
    ∧ isOkE (newKeyPair "0xabcd") = false :=
  ⟨keyPair_constructor_validation_vs_code.2.1 _ (by decide),
   keyPair_constructor_validation_vs_code.2.2 _ (by decide) (by decide)⟩

/-- C3 (code bug, evaluated at failing inputs): the ownership-algebra
identity `KeyPair(s).mulPublicKey(r).address ==
KeyPair(s).mulPrivateKey(r).address` cannot be realized by this code:
no `KeyPair` can be constructed from a private scalar at all (first
conjunct, `s = 2`), `mulPublicKey` raises on every instance and every
argument because the `publicKeyEC` getter pads coordinate slices with
`padHex` (second conjunct), and `mulPrivateKey` on any constructible
(public-key-only) instance raises a `TypeError` because
`this.privateKeyBN` is undefined (third conjunct, on the generator's
public key). -/
theorem ownership_algebra_unrealizable :
    isOkE (newKeyPair
      "0x0000000000000000000000000000000000000000000000000000000000000002") = false
    ∧ (∀ kp value, isOkE (KeyPair.mulPublicKey kp value) = false)
    ∧ isOkE ((newKeyPair
        "0x0479be667ef9dcbbac55a06295ce870b07029bfcdb2dce28d959f2815b16f81798483ada7726a3c4655da4fbfc0e1108a8fd17b448a68554199c47d08ffb10d4b8").bind
          fun kp => KeyPair.mulPrivateKey kp
            (.str "0x0000000000000000000000000000000000000000000000000000000000000005"))
      = false :=
  ⟨newKeyPair_66_fails _ (by decide), mulPublicKey_fails, by decide⟩

/-- C4 (code bug, evaluated at failing inputs): the decrypt-of-encrypt
round trip cannot run.  First conjunct: no `KeyPair` holding a private
scalar can be constructed (`s = 3` raises in `padHex`), so `K.decrypt`
has no private scalar to use.  Second conjunct: even on a construcible
public-key instance, `encrypt` returns a *compressed* 33-byte ephemeral
public key (68 hex characters with the prefix), while `decrypt`'s
`getSharedSecret` demands a 132-character uncompressed key — third
conjunct — so the encryption output does not even satisfy decryption's
input contract.  Fourth conjunct: `decrypt` fails on every instance the
constructor can return. -/
theorem encrypt_decrypt_roundtrip_unrealizable :
    isOkE (newKeyPair
      "0x0000000000000000000000000000000000000000000000000000000000000003") = false
    ∧ ((newKeyPair
        "0x0479be667ef9dcbbac55a06295ce870b07029bfcdb2dce28d959f2815b16f81798483ada7726a3c4655da4fbfc0e1108a8fd17b448a68554199c47d08ffb10d4b8").bind
          fun kp => KeyPair.encrypt kp 2 ⟨5⟩).map
        (fun out => out.ephemeralPublicKey.length) = .ok 68
    ∧ getSharedSecretFn
        "0x0000000000000000000000000000000000000000000000000000000000000001"
        "0x027900000000000000000000000000000000000000000000000000000000000000"
      = .error "Invalid public key"
    ∧ (∀ key kp out, newKeyPair key = .ok kp → isOkE (KeyPair.decrypt kp out) = false) :=
  ⟨newKeyPair_66_fails _ (by decide), by rfl, by rfl,
   fun _ _ out h => decrypt_fails_of_public h out⟩

theorem encrypt_decrypt_roundtrip_unrealizable_witness :
    newKeyPair
      "0x0479be667ef9dcbbac55a06295ce870b07029bfcdb2dce28d959f2815b16f81798483ada7726a3c4655da4fbfc0e1108a8fd17b448a68554199c47d08ffb10d4b8"
      = .ok { privateKeyHex := none, publicKeyHex := "0x0479be667ef9dcbbac55a06295ce870b07029bfcdb2dce28d959f2815b16f81798483ada7726a3c4655da4fbfc0e1108a8fd17b448a68554199c47d08ffb10d4b8" }
    ∧ isOkE (KeyPair.decrypt
        { privateKeyHex := none, publicKeyHex := "0x0479be667ef9dcbbac55a06295ce870b07029bfcdb2dce28d959f2815b16f81798483ada7726a3c4655da4fbfc0e1108a8fd17b448a68554199c47d08ffb10d4b8" }
        { ephemeralPublicKey := "0x02ab", ciphertext := "0xcd" }) = false :=
  ⟨by rfl, encrypt_decrypt_roundtrip_unrealizable.2.2.2
    "0x0479be667ef9dcbbac55a06295ce870b07029bfcdb2dce28d959f2815b16f81798483ada7726a3c4655da4fbfc0e1108a8fd17b448a68554199c47d08ffb10d4b8"
    _ _ (by rfl)⟩

theorem add32_lt (a b : Nat) : add32 a b < M32 := Nat.mod_lt _ (by decide)

theorem tupleWords (h : List Nat)
    (t : Nat × Nat × Nat × Nat × Nat × Nat × Nat × Nat) :
    ∀ w ∈ [add32 (h.getD 0 0) t.1, add32 (h.getD 1 0) t.2.1, add32 (h.getD 2 0) t.2.2.1,
      add32 (h.getD 3 0) t.2.2.2.1, add32 (h.getD 4 0) t.2.2.2.2.1,
      add32 (h.getD 5 0) t.2.2.2.2.2.1, add32 (h.getD 6 0) t.2.2.2.2.2.2.1,
      add32 (h.getD 7 0) t.2.2.2.2.2.2.2], w < M32 := by
  intro w hw
  simp only [List.mem_cons, List.not_mem_nil, or_false] at hw
  rcases hw with rfl | rfl | rfl | rfl | rfl | rfl | rfl | rfl <;> exact add32_lt _ _

theorem shaProcessBlock_words (h bl : List Nat) :
    ∀ w ∈ shaProcessBlock h bl, w < M32 :=
  tupleWords h _

theorem shaProcessBlock_len (h bl : List Nat) : (shaProcessBlock h bl).length = 8 := rfl

theorem shaBlocks_inv :
    ∀ f h msg, ((∀ w ∈ h, w < M32) ∧ h.length = 8) →
      (∀ w ∈ shaBlocks f h msg, w < M32) ∧ (shaBlocks f h msg).length = 8 := by
  intro f
  induction f with
  | zero => intro h msg hh; exact hh
  | succ f ih =>
      intro h msg hh
      unfold shaBlocks
      by_cases he : msg.isEmpty = true
      · simp only [he, if_true]
        exact hh
      · simp only [he, if_false]
        exact ih _ _ ⟨shaProcessBlock_words h (msg.take 64), shaProcessBlock_len h (msg.take 64)⟩

theorem foldl_words_lt :
    ∀ (l : List Nat) (acc : Nat), (∀ w ∈ l, w < M32) →
      l.foldl (fun a w => a * M32 + w) acc < (acc + 1) * M32 ^ l.length := by
  intro l
  induction l with
  | nil => intro acc _; simp [Nat.lt_succ_self acc]
  | cons w l ih =>
      intro acc hl
      have hw : w < M32 := hl w (List.mem_cons_self w l)
      have hrest : ∀ u ∈ l, u < M32 := fun u hu => hl u (List.mem_cons_of_mem w hu)
      calc (w :: l).foldl (fun a u => a * M32 + u) acc
          = l.foldl (fun a u => a * M32 + u) (acc * M32 + w) := rfl
        _ < (acc * M32 + w + 1) * M32 ^ l.length := ih _ hrest
        _ ≤ ((acc + 1) * M32) * M32 ^ l.length := by
            have : acc * M32 + w + 1 ≤ (acc + 1) * M32 := by
              have : w + 1 ≤ M32 := hw
              calc acc * M32 + w + 1 ≤ acc * M32 + M32 := by omega
                _ = (acc + 1) * M32 := by ring
            exact Nat.mul_le_mul_right _ this
        _ = (acc + 1) * M32 ^ (w :: l).length := by
            rw [List.length_cons]
            ring

theorem sha256Nat_lt (msg : List Nat) : sha256Nat msg < 2 ^ 256 := by
  unfold sha256Nat
  have hinv := shaBlocks_inv (sha256Padded msg).length.succ shaH0 (sha256Padded msg)
    ⟨by decide, rfl⟩
  have hb := foldl_words_lt _ 0 hinv.1
  rw [hinv.2] at hb
  have : ((0 : Nat) + 1) * M32 ^ 8 = 2 ^ 256 := by decide
  rw [this] at hb
  exact hb

theorem ethersSha256_ok_shape {s out : String} (h : ethersSha256 s = .ok out) :
    out.length = 66 ∧ ethIsHexString out = true := by
  unfold ethersSha256 at h
  by_cases hc : ethIsHexString s = true ∧ s.length % 2 = 0
  · rw [if_pos hc] at h
    have hout := Except.ok.inj h
    rw [← hout]
    constructor
    · show ("0x".data ++ (pad64 (natToHexLower (sha256Nat _))).data).length = 66
      rw [List.length_append, pad64_data_len (sha256Nat_lt _)]
      rfl
    · exact ethIsHexString_of (s := "0x" ++ pad64 (natToHexLower (sha256Nat _))) rfl
        (pad64_hex _)
  · rw [if_neg hc] at h
    exact Except.noConfusion h

/-- C7 (code bug): the signature-format check behaves as claimed — the
non-conforming input `"0x1234"` raises the signature-format error (first
conjunct) — but no input at all can make `generateKeyPair` return key
pairs (second conjunct): inputs failing the reassembly check raise the
format error, and for inputs that pass it the sha256 digests are
66-character hex strings, which the KeyPair constructor always rejects
inside `padHex`. -/
theorem generateKeyPair_vs_claim :
    generateKeyPair "0x1234" = .error "Signature incorrectly generated or parsed"
    ∧ (∀ sig, ("0x" ++ jsSlice sig 2 66 ++ jsSlice sig 66 130 ++ sliceLast2 sig) ≠ sig →
        generateKeyPair sig = .error "Signature incorrectly generated or parsed")
    ∧ (∀ sig, isOkE (generateKeyPair sig) = false) := by
  refine ⟨by rfl, ?_, ?_⟩
  · intro sig hne
    unfold generateKeyPair
    rw [if_pos hne]
  intro sig
  unfold generateKeyPair
  by_cases hck : ("0x" ++ jsSlice sig 2 66 ++ jsSlice sig 66 130 ++ sliceLast2 sig) ≠ sig
  · rw [if_pos hck]
    rfl
  · rw [if_neg hck]
    cases h1 : ethersSha256 ("0x" ++ jsSlice sig 2 66) with
    | error e => rfl
    | ok spendingPrivateKey =>
        rw [okE_bind]
        cases h2 : ethersSha256 ("0x" ++ jsSlice sig 66 130) with
        | error e => rfl
        | ok viewingPrivateKey =>
            rw [okE_bind]
            have hlen := (ethersSha256_ok_shape h1).1
            have hko := newKeyPair_66_fails spendingPrivateKey hlen
            cases hk : newKeyPair spendingPrivateKey with
            | error e => rfl
            | ok kp =>
                rw [hk] at hko
                exact absurd hko (by simp [isOkE])

theorem generateKeyPair_vs_claim_witness :
    ("0x" ++ jsSlice "0xbb" 2 66 ++ jsSlice "0xbb" 66 130 ++ sliceLast2 "0xbb") ≠ "0xbb"
    ∧ generateKeyPair "0xbb" = .error "Signature incorrectly generated or parsed" :=
  ⟨by decide, generateKeyPair_vs_claim.2.1 "0xbb" (by decide)⟩

theorem isOkE_false {ε α : Type} {x : Except ε α} (h : isOkE x = false) :
    ∃ e, x = .error e := by
  cases x with
  | ok a => simp [isOkE] at h
  | error e => exact ⟨e, rfl⟩

theorem isUsersFundsBody_always_errors (a : Announcement) (c : StealthContract)
    (v s : String) : ∃ e, IsUsersFundsBody a c v s = .error e := by
  unfold IsUsersFundsBody
  cases h1 : KeyPair.getUncompressedFromX a.pkx none with
  | error e => exact ⟨e, rfl⟩
  | ok u =>
      rw [okE_bind]
      cases h2 : newKeyPair v with
      | error e => exact ⟨e, rfl⟩
      | ok viewkey =>
          rw [okE_bind]
          obtain ⟨e, he⟩ := isOkE_false
            (decrypt_fails_of_public h2 ⟨u, a.ciphertext⟩)
          rw [he]
          exact ⟨e, rfl⟩

theorem isUsersFunds_always_false (a : Announcement) (c : StealthContract)
    (v s : String) : (IsUsersFunds a c v s).isForUser = false := by
  obtain ⟨e, he⟩ := isUsersFundsBody_always_errors a c v s
  unfold IsUsersFunds
  rw [he]
  rfl

/-- C2: `IsUsersFunds` never raises — it is a total function of its
inputs — and whenever its try-block body fails with any internal error
(malformed announcement, failed key reconstruction or decryption,
missing/erroring registry entry, malformed viewing key), the returned
record is the catch-block record, whose `isForUser` field is `false`. -/
theorem isUsersFunds_scan_robustness (announcement : Announcement)
    (contract : StealthContract) (viewingPrivateKey sender : String) (e : String)
    (h : IsUsersFundsBody announcement contract viewingPrivateKey sender = .error e) :
    IsUsersFunds announcement contract viewingPrivateKey sender = emptyFundsResult
      ∧ (IsUsersFunds announcement contract viewingPrivateKey sender).isForUser = false := by
  unfold IsUsersFunds
  rw [h]
  exact ⟨rfl, rfl⟩

theorem isUsersFunds_scan_robustness_witness :
    IsUsersFundsBody ⟨"zz", "", "", "", ""⟩ (fun _ => .error "no provider") "" ""
      = .error "invalid BigNumber string"
    ∧ (IsUsersFunds ⟨"zz", "", "", "", ""⟩ (fun _ => .error "no provider") "" "")
      = emptyFundsResult :=
  ⟨by rfl,
   (isUsersFunds_scan_robustness ⟨"zz", "", "", "", ""⟩ (fun _ => .error "no provider")
     "" "" "invalid BigNumber string" (by rfl)).1⟩

/-- C1 (code bug): the end-to-end stealth scenario cannot complete.
First conjunct: with both of identity A's keys registered (here the
generator's x-coordinate with even-y sign byte for both keys), a fully
concrete `prepareSend` run fails — the pipeline survives lookup,
decompression and encryption, but `mulPublicKey` raises inside the
`publicKeyEC` getter when `padHex` rejects the prefix-free coordinate
slice — so sender B never obtains a stealth key pair, `pkx` or
ciphertext.  Second conjunct: `IsUsersFunds` returns `isForUser = false`
for every input whatsoever (its try-block always fails: the viewing key
either fails construction or, as a public-only instance, cannot
decrypt), so the claimed `isForUser == true` outcome is unreachable. -/
theorem end_to_end_stealth_scenario_fails :
    isOkE (prepareSend (fun _ => .ok (2, secpGx, 2, secpGx)) "0xaaaa" ⟨5⟩ 2) = false
    ∧ (∀ announcement contract viewingPrivateKey sender,
        (IsUsersFunds announcement contract viewingPrivateKey sender).isForUser = false) :=
  ⟨by decide, isUsersFunds_always_false⟩

/-- C10 (code bug, evaluated at a concrete well-formed announcement): the
returned record's `randomNumber` field is never the announcement's
ciphertext, because the success-path result object is unreachable — the
decryption step fails (the viewing `KeyPair` cannot be built, and the
success object itself names the undefined `businessTokenAddress`) — so
every call returns the catch record, whose `randomNumber` is the empty
string, distinct from the non-empty ciphertext. -/
theorem isUsersFunds_randomNumber_is_not_ciphertext :
    IsUsersFunds ⟨"0x01", "0xabcd", "0xcccc", "0xdddd", "5"⟩
        (fun _ => .ok (2, secpGx, 2, secpGx))
        "0x0000000000000000000000000000000000000000000000000000000000000004" "0xeeee"
      = emptyFundsResult
    ∧ emptyFundsResult.randomNumber = ""
    ∧ ("0xabcd" : String) ≠ "" := by
  refine ⟨by rfl, rfl, by decide⟩
